import Mathlib

/-!
Verification of the themectl incremental-application subsystem and color
utilities. Definitions are shallow embeddings of the Rust source:
`src/utils.rs`, `src/theme.rs`, `src/incremental.rs`, `src/file_manager.rs`.
Strings are modelled as Lean `String` (lists of characters); where Rust
measures byte lengths, theorems are restricted to ASCII inputs, on which
character count and byte count coincide. The filesystem and the on-disk
freshness-cache table are modelled as explicit state threaded through the
operations; the SHA-256 hash and the per-application generators are external
collaborators and appear as function parameters.
-/

deriving instance DecidableEq for Except

namespace Themectl

/-! ### Color utilities (src/utils.rs) -/

/-- Value of a hex digit, as Rust's `char::to_digit(16)`: accepts `0-9`,
`a-f`, `A-F`. -/
def hexDigitVal (c : Char) : Option Nat :=
  if '0' ≤ c ∧ c ≤ '9' then some (c.toNat - 48)
  else if 'a' ≤ c ∧ c ≤ 'f' then some (c.toNat - 87)
  else if 'A' ≤ c ∧ c ≤ 'F' then some (c.toNat - 55)
  else none

/-- Positive-digit accumulation of `u8::from_str_radix(_, 16)`: each step
multiplies by 16, adds the digit and fails on overflow past 255. -/
def parseHexDigits : List Char → Nat → Option Nat
  | [], acc => some acc
  | c :: rest, acc =>
    match hexDigitVal c with
    | some d => if acc * 16 + d ≤ 255 then parseHexDigits rest (acc * 16 + d) else none
    | none => none

/-- Negative-sign branch of `u8::from_str_radix` on an unsigned type: the
running value stays 0, so every digit must be 0 or the checked subtraction
fails. -/
def parseHexDigitsNeg : List Char → Option Nat
  | [] => some 0
  | c :: rest =>
    match hexDigitVal c with
    | some d => if d = 0 then parseHexDigitsNeg rest else none
    | none => none

/-- Embedding of `u8::from_str_radix(s, 16)`: an optional leading sign
followed by a nonempty run of hex digits, failing on overflow. -/
def fromStrRadix16u8 (cs : List Char) : Option Nat :=
  match cs with
  | [] => none
  | c :: rest =>
    if c = '+' then (if rest = [] then none else parseHexDigits rest 0)
    else if c = '-' then (if rest = [] then none else parseHexDigitsNeg rest)
    else parseHexDigits cs 0

/-- Embedding of Rust's `str::trim_start_matches('#')`: removes every leading
`#`, not just one. -/
def trimStartHashes : List Char → List Char
  | [] => []
  | c :: rest => if c = '#' then trimStartHashes rest else c :: rest

/-- Embedding of `hex_to_rgb` (src/utils.rs lines 4-15): strip leading `#`
characters, require exactly 6 remaining characters, parse three 2-character
groups in base 16. -/
def hexToRgb (s : String) : Option (Nat × Nat × Nat) :=
  let cs := trimStartHashes s.data
  if cs.length = 6 then
    match fromStrRadix16u8 (cs.take 2), fromStrRadix16u8 ((cs.drop 2).take 2),
        fromStrRadix16u8 ((cs.drop 4).take 2) with
    | some r, some g, some b => some (r, g, b)
    | _, _, _ => none
  else none

/-- Lowercase hex digit character for a value below 16, as produced by Rust's
`{:02x}` formatting. -/
def hexChar (n : Nat) : Char :=
  if n < 10 then Char.ofNat (48 + n) else Char.ofNat (87 + n)

/-- Two lowercase hex digits of a byte, as `{:02x}` renders a `u8`. -/
def byteToHex2 (n : Nat) : List Char :=
  [hexChar (n / 16), hexChar (n % 16)]

/-- Embedding of `rgb_to_hex` (src/utils.rs lines 17-19):
`format!("#\x7b:02x\x7d...")` over the three channels, lowercase. -/
def rgbToHex (r g b : Nat) : String :=
  ⟨'#' :: (byteToHex2 r ++ byteToHex2 g ++ byteToHex2 b)⟩

/-- Embedding of `normalize_hex` (src/utils.rs lines 50-56): prepend `#`
unless the string already starts with it. -/
def normalizeHex (s : String) : String :=
  if s.data.head? = some '#' then s else ⟨'#' :: s.data⟩

/-! Spec-side predicates for the color claims. These follow the words of the
specification, to be compared against the source embedding above. -/

/-- Strip at most one leading `#`, the spec's reading of "one optional
leading '#'". -/
def stripOneHash (cs : List Char) : List Char :=
  if cs.head? = some '#' then cs.tail else cs

/-- Character is a hexadecimal digit (either case). -/
def isHexDigitChar (c : Char) : Bool :=
  decide ('0' ≤ c ∧ c ≤ '9') || decide ('a' ≤ c ∧ c ≤ 'f') || decide ('A' ≤ c ∧ c ≤ 'F')

/-- The sixteen lowercase hexadecimal digit characters (listed high to
low). -/
def lowerHexDigits : List Char :=
  ['f', 'e', 'd', 'c', 'b', 'a', '9', '8', '7', '6', '5', '4', '3', '2', '1', '0']

/-- Character is a lowercase-only hexadecimal digit. -/
def isLowerHex (c : Char) : Bool :=
  decide (c ∈ lowerHexDigits)

/-- Numeric value of a lowercase hex digit (0 for non-digits). -/
def lowerHexVal (c : Char) : Nat :=
  (hexDigitVal c).getD 0

/-- Character accepted somewhere by `u8::from_str_radix(_, 16)`: a hex digit
or a sign. -/
def isHexOrSign (c : Char) : Bool :=
  isHexDigitChar c || c = '+' || c = '-'

/-- The spec's well-formedness for the C6 claim: exactly 6 hex digits after
stripping one optional leading `#`. -/
def sixHexAfterOneHash (s : String) : Bool :=
  decide ((stripOneHash s.data).length = 6) && (stripOneHash s.data).all isHexDigitChar

/-- Well-formed 6-digit hex string with lowercase digits and an optional
leading `#`. -/
def wellFormedLowerHex (s : String) : Bool :=
  decide ((stripOneHash s.data).length = 6) && (stripOneHash s.data).all isLowerHex

/-! ### Theme model (src/theme.rs) -/

/-- Embedding of `ColorPalette` (src/theme.rs lines 15-38): nine required
colors and six optional extended colors. -/
structure ColorPalette where
  bg : String
  fg : String
  accent : String
  red : String
  green : String
  yellow : String
  blue : String
  magenta : String
  cyan : String
  orange : Option String := none
  purple : Option String := none
  pink : Option String := none
  white : Option String := none
  black : Option String := none
  gray : Option String := none
deriving DecidableEq, Repr

/-- Embedding of `ThemeProperties` (src/theme.rs lines 40-52); the `f32`
`animation_duration` is carried as a rational, no arithmetic is done on it. -/
structure ThemeProperties where
  border_radius : Option Nat := none
  border_width : Option Nat := none
  shadow_blur : Option Nat := none
  animation_duration : Option Rat := none
  spacing : Option Nat := none
deriving DecidableEq, Repr

/-- Embedding of `Theme` (src/theme.rs lines 3-13). -/
structure Theme where
  name : String
  description : String
  variant : Option String
  colors : ColorPalette
  properties : ThemeProperties
deriving DecidableEq, Repr

/-- Drop the trailing `suf.length` characters, as the slice `name[..end_pos]`
with `end_pos = name.len() - variant.len()`. -/
def stripSuffix (cs suf : List Char) : List Char :=
  cs.take (cs.length - suf.length)

/-- Embedding of `Theme::extract_base_name` (src/theme.rs lines 83-97): strip
the first matching suffix among `-darkest`, `-lightest`, `-dark`, `-light`. -/
def extractBaseName (name : String) : String :=
  let cs := name.data
  if ("-darkest".data).isSuffixOf cs then ⟨stripSuffix cs "-darkest".data⟩
  else if ("-lightest".data).isSuffixOf cs then ⟨stripSuffix cs "-lightest".data⟩
  else if ("-dark".data).isSuffixOf cs then ⟨stripSuffix cs "-dark".data⟩
  else if ("-light".data).isSuffixOf cs then ⟨stripSuffix cs "-light".data⟩
  else name

/-! ### Variant generation (src/utils.rs lines 197-284)

`generate_variant` consults three color collaborators whose numeric behavior
is floating-point (`is_light_color` via WCAG luminance, `lighten_color`,
`darken_color`); they are passed as parameters, so every theorem below holds
for any implementation of them. -/

/-- Color collaborator functions used by `generate_variant`. -/
structure ColorOps where
  isLightColor : String → Bool
  lightenColor : String → Rat → Option String
  darkenColor : String → Rat → Option String

/-- Embedding of `generate_variant` (src/utils.rs lines 197-284). -/
def generateVariant (ops : ColorOps) (theme : Theme) (variant : String) :
    Except String Theme :=
  let isDark : Bool := variant = "dark"
  let isLight : Bool := variant = "light"
  if !isDark && !isLight then
    .error ("Invalid variant: " ++ variant)
  else
    let sourceIsDark := !(ops.isLightColor theme.colors.bg)
    if (isDark && sourceIsDark) || (isLight && !sourceIsDark) then
      .ok { theme with
              variant := some variant,
              name := extractBaseName theme.name ++ "-" ++ variant }
    else
      let bgFactor : Rat := if isDark then 0.85 else 0.75
      let fgFactor : Rat := if isDark then 0.15 else 0.25
      let colorFactor : Rat := if isDark then 0.2 else 0.3
      let newBg :=
        if isDark then (ops.darkenColor theme.colors.bg bgFactor).getD theme.colors.bg
        else (ops.lightenColor theme.colors.bg bgFactor).getD theme.colors.bg
      let newFg :=
        if isDark then (ops.lightenColor theme.colors.fg fgFactor).getD theme.colors.fg
        else (ops.darkenColor theme.colors.fg fgFactor).getD theme.colors.fg
      let adjustColor := fun (c : String) =>
        if isDark then (ops.lightenColor c colorFactor).getD c
        else (ops.darkenColor c colorFactor).getD c
      .ok { name := extractBaseName theme.name ++ "-" ++ variant,
            description := theme.description ++ " (" ++ variant ++ ")",
            variant := some variant,
            colors := { bg := newBg, fg := newFg,
                        accent := adjustColor theme.colors.accent,
                        red := adjustColor theme.colors.red,
                        green := adjustColor theme.colors.green,
                        yellow := adjustColor theme.colors.yellow,
                        blue := adjustColor theme.colors.blue,
                        magenta := adjustColor theme.colors.magenta,
                        cyan := adjustColor theme.colors.cyan,
                        orange := theme.colors.orange.map adjustColor,
                        purple := theme.colors.purple.map adjustColor,
                        pink := theme.colors.pink.map adjustColor,
                        white := theme.colors.white.map adjustColor,
                        black := theme.colors.black.map adjustColor,
                        gray := theme.colors.gray.map adjustColor },
            properties := theme.properties }

/-! ### Paths and finite maps

Target paths are modelled structurally so that Rust's
`Path::with_extension` — which replaces the extension when one is present and
appends one otherwise — has an exact counterpart. `HashMap` values (the
freshness table, and the filesystem itself viewed as a map from path to file
content) are modelled as association lists with replace-on-insert. -/

/-- A filesystem path: directory components, file stem, optional extension. -/
structure FsPath where
  dir : List String
  stem : String
  ext : Option String
deriving DecidableEq, Repr

/-- Embedding of Rust's `Path::with_extension`: the extension (everything
after the final dot of the file name) is replaced, or appended when absent. -/
def withExtension (p : FsPath) (e : String) : FsPath :=
  { p with ext := some e }

/-- Association-list lookup, first binding wins. -/
def mapGet {α β : Type} [DecidableEq α] : List (α × β) → α → Option β
  | [], _ => none
  | (k, v) :: rest, a => if k = a then some v else mapGet rest a

/-- Association-list insert-or-replace, as `HashMap::insert` /
`fs::write` replacing an existing file wholesale. -/
def mapInsert {α β : Type} [DecidableEq α] : List (α × β) → α → β → List (α × β)
  | [], a, b => [(a, b)]
  | (k, v) :: rest, a, b =>
    if k = a then (a, b) :: rest else (k, v) :: mapInsert rest a b

/-! ### Freshness cache (src/incremental.rs) -/

/-- Embedding of `ConfigMetadata` (src/incremental.rs lines 10-15). -/
structure ConfigMetadata where
  theme : String
  hash : String
  last_updated : Nat
deriving DecidableEq, Repr

/-- The whole freshness table keyed by target path. -/
abbrev MetaTable := List (FsPath × ConfigMetadata)

/-- State of the on-disk metadata store `metadata.toml`: absent, a
well-formed serialized table, or present but unparseable. -/
inductive MetaFile where
  | absent : MetaFile
  | parsed : MetaTable → MetaFile
  | corrupt : MetaFile
deriving DecidableEq, Repr

/-- Embedding of `IncrementalManager::load_metadata` (src/incremental.rs
lines 51-69): an absent file yields the empty table, an unparseable file is
an error, otherwise the stored table is returned. -/
def loadMetadata : MetaFile → Except String MetaTable
  | .absent => .ok []
  | .parsed t => .ok t
  | .corrupt => .error "Failed to parse metadata file"

/-- The filesystem restricted to the managed config files: path to content. -/
abbrev FileSys := List (FsPath × String)

/-- Embedding of `IncrementalManager::should_update` (src/incremental.rs
lines 98-123). `hash` stands for the SHA-256 collaborator `compute_hash`;
file reads are modelled as lookups in `fs`. -/
def shouldUpdate (hash : String → String) (mf : MetaFile) (fs : FileSys)
    (configPath : FsPath) (themeName content : String) : Except String Bool :=
  let contentHash := hash content
  match loadMetadata mf with
  | .error e => .error e
  | .ok metadata =>
    match mapGet metadata configPath with
    | some cached =>
      if cached.theme = themeName ∧ cached.hash = contentHash then
        match mapGet fs configPath with
        | some existing =>
          if hash existing = contentHash then .ok false else .ok true
        | none => .ok true
      else .ok true
    | none => .ok true

/-- Embedding of `IncrementalManager::update_metadata` (src/incremental.rs
lines 126-147): load the whole table (propagating a parse failure), insert
the new entry, save the whole table. -/
def updateMetadata (hash : String → String) (mf : MetaFile) (configPath : FsPath)
    (themeName content : String) (now : Nat) : Except String MetaFile :=
  match loadMetadata mf with
  | .error e => .error e
  | .ok metadata =>
    .ok (.parsed (mapInsert metadata configPath
      ⟨themeName, hash content, now⟩))

/-! ### File applier (src/file_manager.rs) -/

/-- The `FileManager` flags relevant to `apply_standard`: `dry_run`, and
whether `IncrementalManager::new()` succeeded (`incremental.is_some()`). -/
structure FMConfig where
  dryRun : Bool
  hasIncremental : Bool
deriving DecidableEq, Repr

/-- Mutable state touched by one standard-mode application: the filesystem
and the on-disk freshness-cache store. -/
structure SysState where
  fs : FileSys
  meta : MetaFile
deriving DecidableEq, Repr

/-- Observable outcome of one `apply_standard` call that did not error. -/
inductive ApplyOutcome where
  | dryRun : ApplyOutcome
  | skipped : ApplyOutcome
  | wrote : ApplyOutcome
deriving DecidableEq, Repr

/-- Backup path of `FileManager::backup_file` (src/file_manager.rs lines
307-332): `path.with_extension(format!("\x7b\x7d.bak", timestamp))`. -/
def backupPath (p : FsPath) (timestamp : Nat) : FsPath :=
  withExtension p (toString timestamp ++ ".bak")

/-- Embedding of `FileManager::apply_standard` (src/file_manager.rs lines
148-224). `gen` is the generator collaborator `generators::generate`. The
function returns the resulting state together with the reported outcome;
state mutations performed before a failing step persist, as they do on a real
filesystem. Faithful details: the skip check runs only when the incremental
manager exists and its errors are discarded by the `if let Ok(false)`
pattern; the backup is taken only when the target exists; the post-write
`update_metadata` error propagates after the file was already written. -/
def applyStandard (hash : String → String)
    (gen : Theme → String → Except String String) (cfg : FMConfig)
    (st : SysState) (theme : Theme) (app : String) (path : FsPath)
    (now : Nat) : SysState × Except String ApplyOutcome :=
  match gen theme app with
  | .error e => (st, .error e)
  | .ok content =>
    if cfg.dryRun then (st, .ok .dryRun)
    else
      let skip := cfg.hasIncremental &&
        (match shouldUpdate hash st.meta st.fs path theme.name content with
         | .ok false => true
         | _ => false)
      if skip then (st, .ok .skipped)
      else
        let fs1 :=
          match mapGet st.fs path with
          | some existing => mapInsert st.fs (backupPath path now) existing
          | none => st.fs
        let fs2 := mapInsert fs1 path content
        if cfg.hasIncremental then
          match updateMetadata hash st.meta path theme.name content now with
          | .ok mf2 => ({ fs := fs2, meta := mf2 }, .ok .wrote)
          | .error e => ({ fs := fs2, meta := st.meta }, .error e)
        else ({ fs := fs2, meta := st.meta }, .ok .wrote)

/-- One racy interleaving of two concurrent `update_metadata` calls from the
unsynchronized `rayon` fan-out in `FileManager::apply_theme`
(src/file_manager.rs lines 48-56): both threads load the same table `tbl`
before either saves; the first component is the store after thread 1's save,
the second is the store after thread 2's subsequent save. -/
def updateMetadataRace (hash : String → String) (tbl : MetaTable)
    (p1 : FsPath) (tn1 c1 : String) (n1 : Nat)
    (p2 : FsPath) (tn2 c2 : String) (n2 : Nat) : MetaFile × MetaFile :=
  (.parsed (mapInsert tbl p1 ⟨tn1, hash c1, n1⟩),
   .parsed (mapInsert tbl p2 ⟨tn2, hash c2, n2⟩))

/-! ### Concrete fixtures used by witnesses and counterexamples -/

/-- A hash collaborator for concrete evaluation; theorems hold for every
`hash`, witnesses instantiate it with the identity. -/
def idHash : String → String := fun s => s

/-- A generator collaborator that always renders the same text. -/
def genConst : Theme → String → Except String String := fun _ _ => .ok "rendered"

/-- A generator collaborator that always fails. -/
def genFail : Theme → String → Except String String := fun _ _ => .error "boom"

/-- Sample theme with the nine required colors. -/
def sampleTheme : Theme :=
  { name := "gruvbox", description := "demo", variant := none,
    colors := { bg := "#282828", fg := "#ebdbb2", accent := "#d79921",
                red := "#cc241d", green := "#98971a", yellow := "#d79921",
                blue := "#458588", magenta := "#b16286", cyan := "#689d6a" },
    properties := {} }

/-- A second theme with a different name. -/
def themeBeta : Theme := { sampleTheme with name := "nord" }

/-- A sample standard-mode target path, `~/.config/kitty/kitty.conf`. -/
def kittyPath : FsPath :=
  ⟨["home", "user", ".config", "kitty"], "kitty", some "conf"⟩

/-- A second target path, `~/.config/waybar/style.css`. -/
def waybarPath : FsPath :=
  ⟨["home", "user", ".config", "waybar"], "style", some "css"⟩

/-- A starting state whose target file exists and whose metadata store is
present but unparseable. -/
def stCorrupt : SysState := ⟨[(kittyPath, "old")], .corrupt⟩

/-- Color collaborators that classify every color as dark. -/
def opsDarkOnly : ColorOps := ⟨fun _ => false, fun _ _ => none, fun _ _ => none⟩

/-! ### C1: skip characterization of shouldUpdate -/

/-- The spec's condition under which a write may be skipped: the cached entry
for the path carries the same theme name and the candidate content's hash,
and the file on disk, if it still exists, hashes identically. -/
def skipCondition (hash : String → String) (tbl : MetaTable) (fs : FileSys)
    (path : FsPath) (themeName content : String) : Prop :=
  ∃ cached, mapGet tbl path = some cached ∧ cached.theme = themeName ∧
    cached.hash = hash content ∧
    ∀ existing, mapGet fs path = some existing → hash existing = hash content

/-! ### Helper lemmas -/

theorem mapGet_mapInsert {α β : Type} [DecidableEq α]
    (m : List (α × β)) (a : α) (b : β) : mapGet (mapInsert m a b) a = some b := by
  induction m with
  | nil => simp [mapGet, mapInsert]
  | cons kv rest ih =>
    obtain ⟨k, v⟩ := kv
    by_cases hk : k = a
    · subst hk
      simp [mapGet, mapInsert]
    · simp [mapGet, mapInsert, hk, ih]

theorem mapGet_mapInsert_ne {α β : Type} [DecidableEq α]
    (m : List (α × β)) (a a' : α) (b : β) (h : a' ≠ a) :
    mapGet (mapInsert m a b) a' = mapGet m a' := by
  induction m with
  | nil => simp [mapGet, mapInsert, Ne.symm h]
  | cons kv rest ih =>
    obtain ⟨k, v⟩ := kv
    by_cases hk : k = a
    · subst hk
      simp [mapGet, mapInsert, Ne.symm h]
    · simp only [mapInsert, if_neg hk, mapGet]
      by_cases hk' : k = a'
      · simp [hk']
      · simp [hk', ih]

theorem exists_six {α : Type} (l : List α) (h : l.length = 6) :
    ∃ a b c d e f, l = [a, b, c, d, e, f] := by
  rcases l with _ | ⟨a, l⟩
  · simp at h
  rcases l with _ | ⟨b, l⟩
  · simp at h
  rcases l with _ | ⟨c, l⟩
  · simp at h
  rcases l with _ | ⟨d, l⟩
  · simp at h
  rcases l with _ | ⟨e, l⟩
  · simp at h
  rcases l with _ | ⟨f, l⟩
  · simp at h
  rcases l with _ | ⟨g, l⟩
  · exact ⟨a, b, c, d, e, f, rfl⟩
  · simp at h

/-- Every lowercase hex digit parses under `hexDigitVal` to a value below 16
that `hexChar` maps back to the same character, and is none of `#`, `+`,
`-`. -/
theorem lowerHex_spec (c : Char) (h : isLowerHex c = true) :
    hexDigitVal c = some (lowerHexVal c) ∧ lowerHexVal c < 16 ∧
      hexChar (lowerHexVal c) = c ∧ c ≠ '#' ∧ c ≠ '+' ∧ c ≠ '-' := by
  have hc : c ∈ lowerHexDigits := of_decide_eq_true h
  fin_cases hc <;> exact ⟨rfl, by decide, by decide, by decide, by decide, by decide⟩

/-- A character heading a successful `parseHexDigits` run is a hex digit. -/
theorem hexDigitVal_of_parseHexDigits (c : Char) (rest : List Char) (acc v : Nat)
    (h : parseHexDigits (c :: rest) acc = some v) : ∃ d, hexDigitVal c = some d := by
  unfold parseHexDigits at h
  cases hd : hexDigitVal c with
  | none => rw [hd] at h; exact absurd h (by simp)
  | some d => exact ⟨d, rfl⟩

/-- A character heading a successful `parseHexDigitsNeg` run is a hex
digit. -/
theorem hexDigitVal_of_parseHexDigitsNeg (c : Char) (rest : List Char) (v : Nat)
    (h : parseHexDigitsNeg (c :: rest) = some v) : ∃ d, hexDigitVal c = some d := by
  unfold parseHexDigitsNeg at h
  cases hd : hexDigitVal c with
  | none => rw [hd] at h; exact absurd h (by simp)
  | some d => exact ⟨d, rfl⟩

/-- A character with a hex-digit value satisfies `isHexDigitChar`. -/
theorem isHexDigitChar_of_hexDigitVal (c : Char) (d : Nat)
    (h : hexDigitVal c = some d) : isHexDigitChar c = true := by
  unfold isHexDigitChar
  simp only [Bool.or_eq_true, decide_eq_true_eq]
  unfold hexDigitVal at h
  split_ifs at h with h1 h2 h3
  · exact Or.inl (Or.inl h1)
  · exact Or.inl (Or.inr h2)
  · exact Or.inr h3

/-- Both characters of a 2-character group accepted by
`u8::from_str_radix(_, 16)` are hex digits or signs. -/
theorem isHexOrSign_of_fromStrRadix16u8 (a b : Char) (v : Nat)
    (h : fromStrRadix16u8 [a, b] = some v) :
    isHexOrSign a = true ∧ isHexOrSign b = true := by
  have h' : (if a = '+' then parseHexDigits [b] 0
      else if a = '-' then parseHexDigitsNeg [b]
      else parseHexDigits [a, b] 0) = some v := h
  split_ifs at h' with hplus hminus
  · obtain ⟨d, hd⟩ := hexDigitVal_of_parseHexDigits b [] 0 v h'
    exact ⟨by simp [isHexOrSign, hplus],
      by simp [isHexOrSign, isHexDigitChar_of_hexDigitVal b d hd]⟩
  · obtain ⟨d, hd⟩ := hexDigitVal_of_parseHexDigitsNeg b [] v h'
    exact ⟨by simp [isHexOrSign, hminus],
      by simp [isHexOrSign, isHexDigitChar_of_hexDigitVal b d hd]⟩
  · obtain ⟨da, hda⟩ := hexDigitVal_of_parseHexDigits a [b] 0 v h'
    unfold parseHexDigits at h'
    rw [hda] at h'
    have h'' : (if 0 * 16 + da ≤ 255 then parseHexDigits [b] (0 * 16 + da)
        else none) = some v := h'
    split_ifs at h'' with hle
    obtain ⟨db, hdb⟩ := hexDigitVal_of_parseHexDigits b [] _ v h''
    exact ⟨by simp [isHexOrSign, isHexDigitChar_of_hexDigitVal a da hda],
      by simp [isHexOrSign, isHexDigitChar_of_hexDigitVal b db hdb]⟩

/-- Both lowercase hex digits of a 2-character group drive `parseHexDigits`
to the assembled byte. -/
theorem parseHexDigits_pair (a b : Char) (da db : Nat)
    (hda : hexDigitVal a = some da) (hdb : hexDigitVal b = some db)
    (hba : da < 16) (hbb : db < 16) :
    parseHexDigits [a, b] 0 = some (da * 16 + db) := by
  unfold parseHexDigits
  rw [hda]
  show (if 0 * 16 + da ≤ 255 then parseHexDigits [b] (0 * 16 + da) else none)
      = some (da * 16 + db)
  rw [if_pos (by omega)]
  unfold parseHexDigits
  rw [hdb]
  show (if (0 * 16 + da) * 16 + db ≤ 255 then
      parseHexDigits [] ((0 * 16 + da) * 16 + db) else none) = some (da * 16 + db)
  rw [if_pos (by omega)]
  unfold parseHexDigits
  simp only [Option.some_inj]
  omega

/-- A 2-character group of lowercase hex digits parses to the expected
byte value. -/
theorem fromStrRadix16u8_pair_lower (a b : Char)
    (ha : isLowerHex a = true) (hb : isLowerHex b = true) :
    fromStrRadix16u8 [a, b] = some (lowerHexVal a * 16 + lowerHexVal b) := by
  obtain ⟨hva, hlta, -, -, hpa, hma⟩ := lowerHex_spec a ha
  obtain ⟨hvb, hltb, -, -, -, -⟩ := lowerHex_spec b hb
  show (if a = '+' then parseHexDigits [b] 0
      else if a = '-' then parseHexDigitsNeg [b]
      else parseHexDigits [a, b] 0) = some (lowerHexVal a * 16 + lowerHexVal b)
  rw [if_neg hpa, if_neg hma]
  exact parseHexDigits_pair a b (lowerHexVal a) (lowerHexVal b) hva hvb hlta hltb

/-- `byteToHex2` inverts a byte assembled from two lowercase hex digits. -/
theorem byteToHex2_pair_lower (a b : Char)
    (ha : isLowerHex a = true) (hb : isLowerHex b = true) :
    byteToHex2 (lowerHexVal a * 16 + lowerHexVal b) = [a, b] := by
  obtain ⟨-, hlta, hca, -, -, -⟩ := lowerHex_spec a ha
  obtain ⟨-, hltb, hcb, -, -, -⟩ := lowerHex_spec b hb
  unfold byteToHex2
  have hdiv : (lowerHexVal a * 16 + lowerHexVal b) / 16 = lowerHexVal a := by omega
  have hmod : (lowerHexVal a * 16 + lowerHexVal b) % 16 = lowerHexVal b := by omega
  rw [hdiv, hmod, hca, hcb]

/-- C1: whenever the metadata table loads, `should_update` returns `false`
(skip the write) only if the cached entry for the path has the given theme
name, the stored hash equals the candidate content's hash, and the on-disk
file, if it exists, hashes identically; in every case where that condition
fails it returns `true`. -/
theorem shouldUpdate_skip_characterization
    (hash : String → String) (mf : MetaFile) (tbl : MetaTable) (fs : FileSys)
    (path : FsPath) (themeName content : String)
    (hload : loadMetadata mf = .ok tbl) :
    (shouldUpdate hash mf fs path themeName content = .ok false →
      skipCondition hash tbl fs path themeName content) ∧
    (¬ skipCondition hash tbl fs path themeName content →
      shouldUpdate hash mf fs path themeName content = .ok true) := by
  have hsu : shouldUpdate hash mf fs path themeName content
      = (match mapGet tbl path with
        | some cached =>
          if cached.theme = themeName ∧ cached.hash = hash content then
            match mapGet fs path with
            | some existing =>
              if hash existing = hash content then Except.ok false else Except.ok true
            | none => Except.ok true
          else Except.ok true
        | none => Except.ok true) := by
    simp only [shouldUpdate]
    rw [hload]
  constructor
  · intro hF
    rw [hsu] at hF
    split at hF
    · rename_i cached hget
      split at hF
      · rename_i hmatch
        split at hF
        · rename_i existing hex
          split at hF
          · rename_i hh
            exact ⟨cached, hget, hmatch.1, hmatch.2, fun e he => by
              rw [hex] at he
              cases he
              exact hh⟩
          · simp at hF
        · simp at hF
      · simp at hF
    · simp at hF
  · intro hN
    rw [hsu]
    split
    · rename_i cached hget
      split
      · rename_i hmatch
        split
        · rename_i existing hex
          split
          · rename_i hh
            exact absurd ⟨cached, hget, hmatch.1, hmatch.2, fun e he => by
              rw [hex] at he
              cases he
              exact hh⟩ hN
          · rfl
        · rfl
      · rfl
    · rfl

/-- Witness for C1: on an empty (but well-formed) table the skip condition
fails and `should_update` indeed returns `true`. -/
theorem shouldUpdate_skip_characterization_witness :
    shouldUpdate idHash (.parsed []) [] kittyPath "gruvbox" "body" = .ok true := by
  have h := shouldUpdate_skip_characterization idHash (.parsed []) [] []
    kittyPath "gruvbox" "body" rfl
  exact h.2 (by rintro ⟨cached, hc, -⟩; simp [mapGet] at hc)

/-! ### C9: a deleted target is always rewritten -/

/-- C9: when the target file does not exist on disk, `should_update` returns
`true` even if the cached entry matches the theme name and content hash
exactly. -/
theorem shouldUpdate_missing_target
    (hash : String → String) (mf : MetaFile) (tbl : MetaTable) (fs : FileSys)
    (path : FsPath) (themeName content : String) (ts : Nat)
    (hload : loadMetadata mf = .ok tbl)
    (hcached : mapGet tbl path = some ⟨themeName, hash content, ts⟩)
    (hmissing : mapGet fs path = none) :
    shouldUpdate hash mf fs path themeName content = .ok true := by
  have hsu : shouldUpdate hash mf fs path themeName content
      = (match mapGet tbl path with
        | some cached =>
          if cached.theme = themeName ∧ cached.hash = hash content then
            match mapGet fs path with
            | some existing =>
              if hash existing = hash content then Except.ok false else Except.ok true
            | none => Except.ok true
          else Except.ok true
        | none => Except.ok true) := by
    simp only [shouldUpdate]
    rw [hload]
  rw [hsu, hcached, hmissing]
  simp

/-- Witness for C9: matching cached entry, missing file, result `true`. -/
theorem shouldUpdate_missing_target_witness :
    shouldUpdate idHash (.parsed [(kittyPath, ⟨"gruvbox", "body", 3⟩)]) []
      kittyPath "gruvbox" "body" = .ok true := by
  exact shouldUpdate_missing_target idHash _ [(kittyPath, ⟨"gruvbox", "body", 3⟩)]
    [] kittyPath "gruvbox" "body" 3 rfl (by decide) rfl

/-! ### C5: dry-run performs no mutation and no cache interaction -/

/-- C5: in dry-run mode `apply_standard` leaves the state untouched, its
outcome is independent of the freshness-cache store (no metadata is read for
a skip decision, none is written), yet the generator still runs: a
generation failure is surfaced as the error of the call, and on generator
success the call reports the dry-run outcome. -/
theorem applyStandard_dryRun_frame
    (hash : String → String) (gen : Theme → String → Except String String)
    (hasInc : Bool) (st : SysState) (theme : Theme) (app : String)
    (path : FsPath) (now : Nat) :
    (applyStandard hash gen ⟨true, hasInc⟩ st theme app path now).1 = st ∧
    (∀ c, gen theme app = .ok c →
      (applyStandard hash gen ⟨true, hasInc⟩ st theme app path now).2 = .ok .dryRun) ∧
    (∀ e, gen theme app = .error e →
      (applyStandard hash gen ⟨true, hasInc⟩ st theme app path now).2 = .error e) ∧
    (∀ mf : MetaFile,
      (applyStandard hash gen ⟨true, hasInc⟩ ⟨st.fs, mf⟩ theme app path now).2 =
        (applyStandard hash gen ⟨true, hasInc⟩ st theme app path now).2) := by
  refine ⟨?_, ?_, ?_, ?_⟩
  · cases hg : gen theme app <;> simp [applyStandard, hg]
  · intro c hc
    simp [applyStandard, hc]
  · intro e he
    simp [applyStandard, he]
  · intro mf
    cases hg : gen theme app <;> simp [applyStandard, hg]

/-- Witness for C5: concrete dry-run call with a succeeding generator over a
corrupt cache store: state untouched, outcome `dryRun`. -/
theorem applyStandard_dryRun_frame_witness :
    (applyStandard idHash genConst ⟨true, true⟩ ⟨[], .corrupt⟩ sampleTheme
      "kitty" kittyPath 0).1 = ⟨[], .corrupt⟩ ∧
    (applyStandard idHash genConst ⟨true, true⟩ ⟨[], .corrupt⟩ sampleTheme
      "kitty" kittyPath 0).2 = .ok .dryRun := by
  have h := applyStandard_dryRun_frame idHash genConst true ⟨[], .corrupt⟩
    sampleTheme "kitty" kittyPath 0
  exact ⟨h.1, h.2.1 "rendered" rfl⟩

/-! ### C2: idempotence of standard-mode application -/

/-- C2: starting from a loadable cache with no entry for the target, a
successful standard-mode apply performs a real write; immediately re-applying
the same theme to the resulting state is a no-op: the call reports `skipped`
and returns the state unchanged — no backup, no write, no metadata change. -/
theorem applyStandard_idempotent
    (hash : String → String) (gen : Theme → String → Except String String)
    (st : SysState) (theme : Theme) (app : String) (path : FsPath)
    (t1 t2 : Nat) (content : String) (tbl : MetaTable)
    (hgen : gen theme app = .ok content)
    (hload : loadMetadata st.meta = .ok tbl)
    (hcold : mapGet tbl path = none) :
    ∃ st1 : SysState,
      applyStandard hash gen ⟨false, true⟩ st theme app path t1 = (st1, .ok .wrote) ∧
      mapGet st1.fs path = some content ∧
      applyStandard hash gen ⟨false, true⟩ st1 theme app path t2 = (st1, .ok .skipped) := by
  have hsu1 : shouldUpdate hash st.meta st.fs path theme.name content = .ok true := by
    have hred : shouldUpdate hash st.meta st.fs path theme.name content
        = (match mapGet tbl path with
          | some cached =>
            if cached.theme = theme.name ∧ cached.hash = hash content then
              match mapGet st.fs path with
              | some existing =>
                if hash existing = hash content then Except.ok false else Except.ok true
              | none => Except.ok true
            else Except.ok true
          | none => Except.ok true) := by
      simp only [shouldUpdate]
      rw [hload]
    rw [hred, hcold]
  have hum : updateMetadata hash st.meta path theme.name content t1
      = .ok (.parsed (mapInsert tbl path ⟨theme.name, hash content, t1⟩)) := by
    simp only [updateMetadata]
    rw [hload]
  set fs2 :=
    mapInsert (match mapGet st.fs path with
      | some existing => mapInsert st.fs (backupPath path t1) existing
      | none => st.fs) path content with hfs2
  refine ⟨⟨fs2, .parsed (mapInsert tbl path ⟨theme.name, hash content, t1⟩)⟩, ?_, ?_, ?_⟩
  · simp only [applyStandard]
    rw [hgen]
    simp only [Bool.false_eq_true, if_false]
    rw [hsu1]
    simp [hum]
  · exact mapGet_mapInsert _ _ _
  · have hsu2 : shouldUpdate hash
        (.parsed (mapInsert tbl path ⟨theme.name, hash content, t1⟩)) fs2
        path theme.name content = .ok false := by
      simp only [shouldUpdate, loadMetadata]
      rw [mapGet_mapInsert]
      simp only [and_self, if_true, if_pos]
      rw [mapGet_mapInsert]
      simp
    simp only [applyStandard]
    rw [hgen]
    simp only [Bool.false_eq_true, if_false]
    rw [hsu2]
    simp

/-- Witness for C2: applying the sample theme twice from an empty absent
cache; the second call reports `skipped`. -/
theorem applyStandard_idempotent_witness :
    (applyStandard idHash genConst ⟨false, true⟩
      (applyStandard idHash genConst ⟨false, true⟩ ⟨[], .absent⟩ sampleTheme
        "kitty" kittyPath 1).1
      sampleTheme "kitty" kittyPath 2).2 = .ok .skipped := by
  obtain ⟨st1, h1, -, h3⟩ := applyStandard_idempotent idHash genConst
    ⟨[], .absent⟩ sampleTheme "kitty" kittyPath 1 2 "rendered" [] rfl rfl rfl
  have hfst : (applyStandard idHash genConst ⟨false, true⟩ ⟨[], .absent⟩
      sampleTheme "kitty" kittyPath 1).1 = st1 := by rw [h1]
  rw [hfst, h3]

/-! ### C3: behavior on an unparseable freshness table -/

/-- Counterexample to C3 as stated: with an unparseable freshness table, a
standard-mode apply does generate, back up and write the file, but the
post-write `update_metadata` propagates the parse failure, so an error IS
reported for the item and no new metadata is recorded. -/
theorem applyStandard_corrupt_counterexample :
    (applyStandard idHash genConst ⟨false, true⟩ stCorrupt sampleTheme
      "kitty" kittyPath 7).2 = .error "Failed to parse metadata file" ∧
    (applyStandard idHash genConst ⟨false, true⟩ stCorrupt sampleTheme
      "kitty" kittyPath 7).1.meta = .corrupt ∧
    mapGet (applyStandard idHash genConst ⟨false, true⟩ stCorrupt sampleTheme
      "kitty" kittyPath 7).1.fs kittyPath = some "rendered" := by
  decide

/-- C3 amended: with an unparseable freshness table, the skip check treats
the cache as cold (its failure is discarded), the apply still backs up the
existing target and writes the new content — but the post-write metadata
update fails on the same unparseable table, so the apply returns the parse
error for that item and the store keeps its corrupt contents. -/
theorem applyStandard_corruptMeta
    (hash : String → String) (gen : Theme → String → Except String String)
    (st : SysState) (theme : Theme) (app : String) (path : FsPath)
    (now : Nat) (content old : String)
    (hmeta : st.meta = .corrupt)
    (hgen : gen theme app = .ok content)
    (hfile : mapGet st.fs path = some old) :
    applyStandard hash gen ⟨false, true⟩ st theme app path now =
      (⟨mapInsert (mapInsert st.fs (backupPath path now) old) path content, .corrupt⟩,
       .error "Failed to parse metadata file") := by
  simp only [applyStandard]
  rw [hgen]
  simp only [Bool.false_eq_true, if_false]
  rw [hmeta]
  simp only [shouldUpdate, updateMetadata, loadMetadata]
  rw [hfile]
  simp

/-- Witness for C3's amended theorem at a concrete corrupt store. -/
theorem applyStandard_corruptMeta_witness :
    applyStandard idHash genConst ⟨false, true⟩ ⟨[(kittyPath, "c0")], .corrupt⟩
      sampleTheme "kitty" kittyPath 4 =
      (⟨mapInsert (mapInsert [(kittyPath, "c0")] (backupPath kittyPath 4) "c0")
          kittyPath "rendered", .corrupt⟩,
       .error "Failed to parse metadata file") := by
  exact applyStandard_corruptMeta idHash genConst ⟨[(kittyPath, "c0")], .corrupt⟩
    sampleTheme "kitty" kittyPath 4 "rendered" "c0" rfl rfl (by decide)

/-! ### C4: backup before overwrite, and the same-second collision -/

/-- Counterexample to C4 as stated: two real writes to the same existing
target in the same second (applying two different themes) name the same
backup file, so the second write overwrites the first backup: after the
first apply the backup holds the original content `c0`, after the second it
holds the first apply's content instead. -/
theorem applyStandard_backup_counterexample :
    mapGet (applyStandard idHash genConst ⟨false, true⟩ ⟨[(kittyPath, "c0")], .absent⟩
      sampleTheme "kitty" kittyPath 9).1.fs (backupPath kittyPath 9) = some "c0" ∧
    (applyStandard idHash genConst ⟨false, true⟩
      (applyStandard idHash genConst ⟨false, true⟩ ⟨[(kittyPath, "c0")], .absent⟩
        sampleTheme "kitty" kittyPath 9).1
      themeBeta "kitty" kittyPath 9).2 = .ok .wrote ∧
    mapGet (applyStandard idHash genConst ⟨false, true⟩
      (applyStandard idHash genConst ⟨false, true⟩ ⟨[(kittyPath, "c0")], .absent⟩
        sampleTheme "kitty" kittyPath 9).1
      themeBeta "kitty" kittyPath 9).1.fs (backupPath kittyPath 9) = some "rendered" := by
  decide

/-- C4 amended: every real (non-skipped, non-dry-run) standard-mode write to
an existing target first copies the pre-write content to the timestamped
backup path and only then overwrites the target, touching no other path —
but backup names depend only on (path, timestamp second), so a backup
written by another real write in the same second is overwritten rather than
preserved. -/
theorem applyStandard_backupSafety
    (hash : String → String) (gen : Theme → String → Except String String)
    (st : SysState) (theme : Theme) (app : String) (path : FsPath)
    (now : Nat) (content old : String)
    (hgen : gen theme app = .ok content)
    (hold : mapGet st.fs path = some old)
    (hbp : backupPath path now ≠ path)
    (hnoskip : shouldUpdate hash st.meta st.fs path theme.name content ≠ .ok false) :
    mapGet (applyStandard hash gen ⟨false, true⟩ st theme app path now).1.fs
      (backupPath path now) = some old ∧
    mapGet (applyStandard hash gen ⟨false, true⟩ st theme app path now).1.fs
      path = some content ∧
    ∀ q, q ≠ path → q ≠ backupPath path now →
      mapGet (applyStandard hash gen ⟨false, true⟩ st theme app path now).1.fs q =
        mapGet st.fs q := by
  have hfs : (applyStandard hash gen ⟨false, true⟩ st theme app path now).1.fs
      = mapInsert (mapInsert st.fs (backupPath path now) old) path content := by
    simp only [applyStandard]
    rw [hgen]
    simp only [Bool.false_eq_true, if_false]
    cases hsu : shouldUpdate hash st.meta st.fs path theme.name content with
    | error e =>
      rw [hold]
      cases hum : updateMetadata hash st.meta path theme.name content now <;> simp [hum]
    | ok b =>
      cases b with
      | false => exact absurd hsu hnoskip
      | true =>
        rw [hold]
        cases hum : updateMetadata hash st.meta path theme.name content now <;> simp [hum]
  refine ⟨?_, ?_, ?_⟩
  · rw [hfs, mapGet_mapInsert_ne _ _ _ _ hbp, mapGet_mapInsert]
  · rw [hfs, mapGet_mapInsert]
  · intro q hq hqb
    rw [hfs, mapGet_mapInsert_ne _ _ _ _ hq, mapGet_mapInsert_ne _ _ _ _ hqb]

/-- Witness for C4's amended theorem: a concrete real write to an existing
target yields exactly the backup of the old content and the new target. -/
theorem applyStandard_backupSafety_witness :
    mapGet (applyStandard idHash genConst ⟨false, true⟩ ⟨[(kittyPath, "c0")], .absent⟩
      sampleTheme "kitty" kittyPath 4).1.fs (backupPath kittyPath 4) = some "c0" ∧
    mapGet (applyStandard idHash genConst ⟨false, true⟩ ⟨[(kittyPath, "c0")], .absent⟩
      sampleTheme "kitty" kittyPath 4).1.fs kittyPath = some "rendered" := by
  have h := applyStandard_backupSafety idHash genConst ⟨[(kittyPath, "c0")], .absent⟩
    sampleTheme "kitty" kittyPath 4 "rendered" "c0" rfl (by decide) (by decide) (by decide)
  exact ⟨h.1, h.2.1⟩

/-! ### C8: unsynchronized whole-table updates lose concurrent writes -/

/-- Counterexample to C8 as stated: `update_metadata` holds no lock around
its load-mutate-save, so the interleaving in which both `rayon` workers load
the (empty) table before either saves is possible; thread 1's save stores
its entry, thread 2's subsequent save replaces the whole table and the entry
for `kittyPath` is lost even though the two updates target different paths. -/
theorem updateMetadataRace_counterexample :
    (updateMetadataRace idHash [] kittyPath "gruvbox" "a" 1
        waybarPath "gruvbox" "b" 2).1 = .parsed [(kittyPath, ⟨"gruvbox", "a", 1⟩)] ∧
    (updateMetadataRace idHash [] kittyPath "gruvbox" "a" 1
        waybarPath "gruvbox" "b" 2).2 = .parsed [(waybarPath, ⟨"gruvbox", "b", 2⟩)] ∧
    mapGet [(waybarPath, (⟨"gruvbox", "b", 2⟩ : ConfigMetadata))] kittyPath = none ∧
    kittyPath ≠ waybarPath := by
  decide

/-- C8 amended: the freshness-table update is a whole-table load-mutate-save
with no mutual-exclusion boundary in the code; in the interleaving where two
concurrent applies for different target paths both load before either saves,
the final store is the second writer's table alone, and the first writer's
update is absent from it. -/
theorem updateMetadataRace_lostUpdate
    (hash : String → String) (tbl : MetaTable)
    (p1 p2 : FsPath) (tn1 c1 tn2 c2 : String) (n1 n2 : Nat)
    (hne : p1 ≠ p2) (hcold : mapGet tbl p1 = none) :
    (updateMetadataRace hash tbl p1 tn1 c1 n1 p2 tn2 c2 n2).2 =
      .parsed (mapInsert tbl p2 ⟨tn2, hash c2, n2⟩) ∧
    mapGet (mapInsert tbl p2 ⟨tn2, hash c2, n2⟩) p1 = none := by
  exact ⟨rfl, by rw [mapGet_mapInsert_ne _ _ _ _ hne]; exact hcold⟩

/-- Witness for C8's amended theorem at concrete distinct paths. -/
theorem updateMetadataRace_lostUpdate_witness :
    (updateMetadataRace idHash [] kittyPath "gruvbox" "a" 1
        waybarPath "nord" "b" 2).2 =
      .parsed (mapInsert [] waybarPath ⟨"nord", idHash "b", 2⟩) ∧
    mapGet (mapInsert [] waybarPath (⟨"nord", idHash "b", 2⟩ : ConfigMetadata))
      kittyPath = none := by
  exact updateMetadataRace_lostUpdate idHash [] kittyPath waybarPath
    "gruvbox" "a" "nord" "b" 1 2 (by decide) rfl

/-! ### C10: same-polarity variant generation is a renaming copy -/

/-- C10: when `generate_variant` is asked for the polarity the source theme
already has — "dark" while `is_light_color(bg)` is false, or "light" while
it is true — the result keeps the colors, properties and description of the
source unchanged; only the name (base name with the variant appended) and
the variant field are set. This holds for every implementation of the
floating-point color collaborators. -/
theorem generateVariant_samePolarity
    (ops : ColorOps) (theme : Theme) (variant : String)
    (h : (variant = "dark" ∧ ops.isLightColor theme.colors.bg = false) ∨
         (variant = "light" ∧ ops.isLightColor theme.colors.bg = true)) :
    generateVariant ops theme variant =
      .ok { theme with
              variant := some variant,
              name := extractBaseName theme.name ++ "-" ++ variant } := by
  rcases h with ⟨rfl, hl⟩ | ⟨rfl, hl⟩ <;> simp [generateVariant, hl]

/-- Witness for C10: requesting the "dark" variant of a theme whose bg the
collaborator classifies as dark yields a copy with only name and variant
changed. -/
theorem generateVariant_samePolarity_witness :
    generateVariant opsDarkOnly sampleTheme "dark" =
      .ok { sampleTheme with
              variant := some "dark",
              name := extractBaseName sampleTheme.name ++ "-" ++ "dark" } := by
  exact generateVariant_samePolarity opsDarkOnly sampleTheme "dark" (Or.inl ⟨rfl, rfl⟩)

/-! ### C6: rejection domain of hexToRgb -/

theorem string_eq_of_data (s t : String) (h : s.data = t.data) : s = t := by
  cases s
  cases t
  exact congrArg String.mk h

/-- A successful `hex_to_rgb` parse implies the input had exactly 6
characters after stripping all leading `#`, each a hex digit or a sign. -/
theorem hexToRgb_some_shape (s : String) (v : Nat × Nat × Nat)
    (h : hexToRgb s = some v) :
    (trimStartHashes s.data).length = 6 ∧
      ∀ c ∈ trimStartHashes s.data, isHexOrSign c = true := by
  simp only [hexToRgb] at h
  split at h
  · rename_i hlen
    refine ⟨hlen, ?_⟩
    obtain ⟨c1, c2, c3, c4, c5, c6, hcs⟩ := exists_six _ hlen
    rw [hcs] at h
    have g1 : ([c1, c2, c3, c4, c5, c6] : List Char).take 2 = [c1, c2] := rfl
    have g2 : (([c1, c2, c3, c4, c5, c6] : List Char).drop 2).take 2 = [c3, c4] := rfl
    have g3 : (([c1, c2, c3, c4, c5, c6] : List Char).drop 4).take 2 = [c5, c6] := rfl
    rw [g1, g2, g3] at h
    cases h1 : fromStrRadix16u8 [c1, c2] with
    | none => rw [h1] at h; exact absurd h (by simp)
    | some r =>
      cases h2 : fromStrRadix16u8 [c3, c4] with
      | none => rw [h1, h2] at h; exact absurd h (by simp)
      | some g =>
        cases h3 : fromStrRadix16u8 [c5, c6] with
        | none => rw [h1, h2, h3] at h; exact absurd h (by simp)
        | some b =>
          intro c hc
          rw [hcs] at hc
          obtain ⟨hA1, hA2⟩ := isHexOrSign_of_fromStrRadix16u8 c1 c2 r h1
          obtain ⟨hB1, hB2⟩ := isHexOrSign_of_fromStrRadix16u8 c3 c4 g h2
          obtain ⟨hC1, hC2⟩ := isHexOrSign_of_fromStrRadix16u8 c5 c6 b h3
          simp only [List.mem_cons] at hc
          rcases hc with rfl | rfl | rfl | rfl | rfl | rfl | hnil
          · exact hA1
          · exact hA2
          · exact hB1
          · exact hB2
          · exact hC1
          · exact hC2
          · cases hnil
  · exact absurd h (by simp)

/-- Counterexample to C6 as stated: `trim_start_matches('#')` strips every
leading `#`, so a string with two leading `#` before 6 hex digits — not
well-formed by the spec's "one optional leading #" reading — is accepted. -/
theorem hexToRgb_sixHex_counterexample :
    sixHexAfterOneHash "##282828" = false ∧
      hexToRgb "##282828" = some (40, 40, 40) := by
  decide

/-- C6 amended: `hex_to_rgb` returns no value for every ASCII input whose
remainder after stripping ALL leading `#` characters is not exactly 6
characters each of which is a hexadecimal digit or a sign character (the
underlying `u8::from_str_radix` accepts `+`/`-` prefixes, and multiple
leading `#` are stripped rather than rejected). -/
theorem hexToRgb_none_of_malformed
    (s : String)
    (_hascii : ∀ c ∈ s.data, c.toNat < 128)
    (hbad : ¬ ((trimStartHashes s.data).length = 6 ∧
        ∀ c ∈ trimStartHashes s.data, isHexOrSign c = true)) :
    hexToRgb s = none := by
  cases hv : hexToRgb s with
  | none => rfl
  | some v => exact absurd (hexToRgb_some_shape s v hv) hbad

/-- Witness for C6's amended theorem: `"12345z"` has 6 characters but a
non-hex one, and is rejected. -/
theorem hexToRgb_none_of_malformed_witness :
    hexToRgb "12345z" = none :=
  hexToRgb_none_of_malformed "12345z" (by decide) (by decide)

/-! ### C7: hex round-trip up to lowercasing -/

/-- Counterexample to C7 as stated: `rgb_to_hex` formats with lowercase
`:02x`, while `normalize_hex` preserves case, so the round-trip differs from
`normalize` on a well-formed uppercase input. -/
theorem hexRoundTrip_counterexample :
    sixHexAfterOneHash "#ABCDEF" = true ∧
    hexToRgb "#ABCDEF" = some (171, 205, 239) ∧
    rgbToHex 171 205 239 = "#abcdef" ∧
    normalizeHex "#ABCDEF" = "#ABCDEF" ∧
    rgbToHex 171 205 239 ≠ normalizeHex "#ABCDEF" := by
  decide

/-- C7 amended: for every well-formed 6-hex-digit color string with
lowercase digits (optional leading `#`), `rgb_to_hex` applied to the
channels produced by `hex_to_rgb` equals `normalize_hex` of the input; on
uppercase inputs the round-trip instead yields the lowercased normal form,
as the counterexample shows. -/
theorem hexToRgb_rgbToHex_roundTrip (s : String)
    (hwf : wellFormedLowerHex s = true) :
    ∃ rgb : Nat × Nat × Nat, hexToRgb s = some rgb ∧
      rgbToHex rgb.1 rgb.2.1 rgb.2.2 = normalizeHex s := by
  unfold wellFormedLowerHex at hwf
  rw [Bool.and_eq_true] at hwf
  obtain ⟨hlen6, hall⟩ := hwf
  have hlen : (stripOneHash s.data).length = 6 := of_decide_eq_true hlen6
  obtain ⟨c1, c2, c3, c4, c5, c6, hstrip⟩ := exists_six _ hlen
  have hall' : ∀ c ∈ stripOneHash s.data, isLowerHex c = true := by
    intro c hc
    exact List.all_eq_true.mp hall c hc
  have h1 : isLowerHex c1 = true := hall' c1 (by rw [hstrip]; simp)
  have h2 : isLowerHex c2 = true := hall' c2 (by rw [hstrip]; simp)
  have h3 : isLowerHex c3 = true := hall' c3 (by rw [hstrip]; simp)
  have h4 : isLowerHex c4 = true := hall' c4 (by rw [hstrip]; simp)
  have h5 : isLowerHex c5 = true := hall' c5 (by rw [hstrip]; simp)
  have h6 : isLowerHex c6 = true := hall' c6 (by rw [hstrip]; simp)
  have hc1 : c1 ≠ '#' := (lowerHex_spec c1 h1).2.2.2.1
  have hcase : s.data = '#' :: [c1, c2, c3, c4, c5, c6] ∨
      (s.data = [c1, c2, c3, c4, c5, c6] ∧ s.data.head? ≠ some '#') := by
    unfold stripOneHash at hstrip
    by_cases hh : s.data.head? = some '#'
    · left
      rw [if_pos hh] at hstrip
      cases hd : s.data with
      | nil => rw [hd] at hh; exact absurd hh (by simp)
      | cons a t =>
        rw [hd] at hh hstrip
        simp only [List.head?_cons, Option.some_inj] at hh
        simp only [List.tail_cons] at hstrip
        rw [hh, hstrip]
    · right
      rw [if_neg hh] at hstrip
      exact ⟨hstrip, hh⟩
  have htrim : trimStartHashes s.data = [c1, c2, c3, c4, c5, c6] := by
    rcases hcase with hA | ⟨hB, -⟩
    · rw [hA]
      simp [trimStartHashes, hc1]
    · rw [hB]
      simp [trimStartHashes, hc1]
  refine ⟨(lowerHexVal c1 * 16 + lowerHexVal c2,
           lowerHexVal c3 * 16 + lowerHexVal c4,
           lowerHexVal c5 * 16 + lowerHexVal c6), ?_, ?_⟩
  · simp only [hexToRgb]
    rw [htrim]
    rw [if_pos (by simp)]
    have g1 : ([c1, c2, c3, c4, c5, c6] : List Char).take 2 = [c1, c2] := rfl
    have g2 : (([c1, c2, c3, c4, c5, c6] : List Char).drop 2).take 2 = [c3, c4] := rfl
    have g3 : (([c1, c2, c3, c4, c5, c6] : List Char).drop 4).take 2 = [c5, c6] := rfl
    rw [g1, g2, g3,
        fromStrRadix16u8_pair_lower c1 c2 h1 h2,
        fromStrRadix16u8_pair_lower c3 c4 h3 h4,
        fromStrRadix16u8_pair_lower c5 c6 h5 h6]
  · show rgbToHex (lowerHexVal c1 * 16 + lowerHexVal c2)
        (lowerHexVal c3 * 16 + lowerHexVal c4)
        (lowerHexVal c5 * 16 + lowerHexVal c6) = normalizeHex s
    unfold rgbToHex
    rw [byteToHex2_pair_lower c1 c2 h1 h2,
        byteToHex2_pair_lower c3 c4 h3 h4,
        byteToHex2_pair_lower c5 c6 h5 h6]
    rcases hcase with hA | ⟨hB, hh⟩
    · have hhead : s.data.head? = some '#' := by rw [hA]; rfl
      have hs : s = ⟨'#' :: [c1, c2, c3, c4, c5, c6]⟩ := string_eq_of_data _ _ hA
      simp only [normalizeHex]
      rw [if_pos hhead, hs]
      rfl
    · simp only [normalizeHex]
      rw [if_neg hh, hB]
      rfl

/-- Witness for C7's amended theorem on the concrete input `"#282828"`. -/
theorem hexToRgb_rgbToHex_roundTrip_witness :
    wellFormedLowerHex "#282828" = true ∧
    hexToRgb "#282828" = some (40, 40, 40) ∧
    rgbToHex 40 40 40 = normalizeHex "#282828" := by
  obtain ⟨rgb, hsome, hround⟩ := hexToRgb_rgbToHex_roundTrip "#282828" (by decide)
  have hr : rgb = (40, 40, 40) := by
    rw [(by decide : hexToRgb "#282828" = some (40, 40, 40))] at hsome
    exact (Option.some_inj.mp hsome).symm
  subst hr
  exact ⟨by decide, by decide, hround⟩

end Themectl
